import Mathlib

/-!
# Trade Publisher API — verification of the request-handling core

Shallow embedding of the Flask service in src/main.py.  The store (three
MySQL tables: accounts, trades, trade_signals) is modelled as lists of rows
in a `DBState`; numeric JSON payload values and epoch-second timestamps are
modelled as `Int` (the handlers never compute with them, they only store and
return them, so the datetime <-> epoch conversions at the boundary are the
identity here).  Each HTTP handler becomes a function from a `DBState` to a
result, the updated state, and the number of SQL statements executed on the
connection (cursor.execute calls, attempted ones included) — the counter is
what lets us say an operation never touched the store.

The connection pool is configured with autocommit = True (DB_CONFIG in
src/main.py lines 21-31), so every successfully executed statement is
immediately durable and the conn.commit() calls are no-ops.  A store error
raised by some statement of a publish batch is modelled by an oracle
`failAt : Option Nat` giving the index of the statement whose execution
raises mysql.connector.Error; the error propagates to the handle_db_error
decorator, which translates it to the 500 persistence-error response
(modelled by the dbError result constructors), while every statement already
executed stays applied.
-/

/-- A row of the accounts table (key: account_number). -/
structure AccountRow where
  account_number : Int
  server : String
  balance : Int
  equity : Int
  margin : Int
  free_margin : Int
  last_update : Int
deriving DecidableEq, Repr

/-- A row of the trades table (key: (account_number, ticket)). -/
structure TradeRow where
  account_number : Int
  ticket : Int
  symbol : String
  type : Int
  lots : Int
  open_price : Int
  open_time : Int
  sl : Int
  tp : Int
  profit : Int
  comment : String
  last_update : Int
deriving DecidableEq, Repr

/-- A row of the trade_signals table (key: id, auto-increment). -/
structure SignalRow where
  id : Nat
  account_number : Int
  ticket : Int
  signal_type : String
  created_at : Int
  processed : Bool
  processed_at : Option Int
deriving DecidableEq, Repr

/-- The persistent store: the three tables plus the auto-increment counter
for trade_signals.id. -/
structure DBState where
  accounts : List AccountRow
  trades : List TradeRow
  signals : List SignalRow
  next_signal_id : Nat
deriving DecidableEq, Repr

/-- One element of the trades array of a publish payload; every JSON key may
be absent. -/
structure TradeEntry where
  ticket : Option Int
  symbol : Option String
  type : Option Int
  lots : Option Int
  open_price : Option Int
  open_time : Option Int
  sl : Option Int
  tp : Option Int
  profit : Option Int
  comment : Option String
deriving DecidableEq, Repr

/-- The JSON body of POST /api/trades; account, server and timestamp are
required (checked by the handler), the rest optional; a missing trades key
reads as the empty list (data.get with default []). -/
structure PublishData where
  account : Option Int
  server : Option String
  timestamp : Option Int
  balance : Option Int
  equity : Option Int
  margin : Option Int
  free_margin : Option Int
  trades : List TradeEntry
deriving DecidableEq, Repr

/-- INSERT ... ON DUPLICATE KEY UPDATE into accounts (src/main.py 158-177):
on key collision only balance, equity, margin, free_margin, last_update are
refreshed; otherwise a new row is inserted. -/
def upsertAccount (st : DBState) (a : Int) (server : String)
    (balance equity margin free_margin last_update : Int) : DBState :=
  if st.accounts.any (fun r => r.account_number == a) then
    { st with accounts := st.accounts.map (fun r =>
        if r.account_number == a then
          { r with balance := balance, equity := equity, margin := margin,
                   free_margin := free_margin, last_update := last_update }
        else r) }
  else
    { st with accounts := st.accounts ++
        [{ account_number := a, server := server, balance := balance,
           equity := equity, margin := margin, free_margin := free_margin,
           last_update := last_update }] }

/-- INSERT ... ON DUPLICATE KEY UPDATE into trades (src/main.py 185-194): on
collision of (account_number, ticket) only profit, sl, tp, last_update are
refreshed; the identity fields keep their stored values. -/
def upsertTrade (st : DBState) (r : TradeRow) : DBState :=
  if st.trades.any (fun t => t.account_number == r.account_number && t.ticket == r.ticket) then
    { st with trades := st.trades.map (fun t =>
        if t.account_number == r.account_number && t.ticket == r.ticket then
          { t with profit := r.profit, sl := r.sl, tp := r.tp,
                   last_update := r.last_update }
        else t) }
  else
    { st with trades := st.trades ++ [r] }

/-- The trades-table row built from one payload entry (src/main.py 196-209):
defaults type=0, lots=0, open_price=0, sl=0, tp=0, profit=0, comment="",
open_time defaulting to the batch timestamp; last_update is the batch
timestamp. -/
def mkTradeRow (a ts : Int) (e : TradeEntry) (tk : Int) (sy : String) : TradeRow :=
  { account_number := a, ticket := tk, symbol := sy,
    type := e.type.getD 0, lots := e.lots.getD 0,
    open_price := e.open_price.getD 0, open_time := e.open_time.getD ts,
    sl := e.sl.getD 0, tp := e.tp.getD 0, profit := e.profit.getD 0,
    comment := e.comment.getD "", last_update := ts }

/-- The entries of a trades list that carry both a ticket and a symbol —
exactly the ones the publish loop does not skip (src/main.py 182-183). -/
def wfTrades (es : List TradeEntry) : List TradeEntry :=
  es.filter (fun e => e.ticket.isSome && e.symbol.isSome)

/-- Sequential application of the trade upserts of a batch: skipped entries
leave the state alone, the others are upserted in order. -/
def applyTrades (a ts : Int) (es : List TradeEntry) (st : DBState) : DBState :=
  es.foldl (fun s e =>
    match e.ticket, e.symbol with
    | some tk, some sy => upsertTrade s (mkTradeRow a ts e tk sy)
    | _, _ => s) st

/-- Result of POST /api/trades as seen by the caller.  missingField is the
400 validation response; dbError is the 500 produced by handle_db_error when
a statement raises mysql.connector.Error. -/
inductive PublishResult where
  | success (trades_count : Nat) (account : Int)
  | missingField (field : String)
  | dbError
deriving DecidableEq, Repr

/-- Outcome of the publish trade loop: done carries the trades_inserted
counter, the index of the next statement (= number of statements attempted
so far) and the state; failed carries the same index and the state at the
moment the failing statement raised. -/
inductive LoopOut where
  | done (count : Nat) (next : Nat) (st : DBState)
  | failed (next : Nat) (st : DBState)
deriving DecidableEq, Repr

/-- The for-loop of publish_trades (src/main.py 179-210).  Entries missing
ticket or symbol are skipped without executing a statement; each other entry
executes one INSERT, numbered idx; if failAt names that index the statement
raises and, autocommit being on, the loop stops with everything before it
still applied. -/
def runTrades (failAt : Option Nat) (a ts : Int) :
    List TradeEntry → Nat → Nat → DBState → LoopOut
  | [], count, idx, st => .done count idx st
  | e :: rest, count, idx, st =>
    match e.ticket, e.symbol with
    | some tk, some sy =>
      if failAt = some idx then .failed (idx + 1) st
      else runTrades failAt a ts rest (count + 1) (idx + 1)
        (upsertTrade st (mkTradeRow a ts e tk sy))
    | _, _ => runTrades failAt a ts rest count idx st

/-- POST /api/trades (src/main.py 135-224).  Required fields are checked in
order account, server, timestamp (400 on the first missing one, before any
statement runs).  Statement 0 is the account upsert, the executed trade
upserts are statements 1, 2, ...; failAt = some j makes statement j raise
mysql.connector.Error, which handle_db_error turns into the 500 dbError
response — with autocommit on, the statements before j stay applied. -/
def publish_trades (failAt : Option Nat) (st : DBState) (d : PublishData) :
    PublishResult × DBState × Nat :=
  match d.account with
  | none => (.missingField "account", st, 0)
  | some a =>
    match d.server with
    | none => (.missingField "server", st, 0)
    | some server =>
      match d.timestamp with
      | none => (.missingField "timestamp", st, 0)
      | some ts =>
        if failAt = some 0 then (.dbError, st, 1)
        else
          let st1 := upsertAccount st a server (d.balance.getD 0) (d.equity.getD 0)
            (d.margin.getD 0) (d.free_margin.getD 0) ts
          match runTrades failAt a ts d.trades 0 1 st1 with
          | .done count next st2 => (.success count a, st2, next)
          | .failed next st2 => (.dbError, st2, next)

/-- SELECT * FROM accounts WHERE account_number = x, fetchone
(src/main.py 239-241): the first matching row, if any. -/
def findAccount (st : DBState) (a : Int) : Option AccountRow :=
  st.accounts.find? (fun r => r.account_number == a)

/-- ASCII whitespace stripped by Python str.strip (the model ignores the
further Unicode whitespace Python would also strip). -/
def isPySpace (c : Char) : Bool :=
  c == ' ' || c == '\t' || c == '\n' || c == '\r' || c == '\x0b' || c == '\x0c'

/-- Both-ends whitespace stripping, as int() applies to its argument. -/
def pyTrim (l : List Char) : List Char :=
  ((l.dropWhile isPySpace).reverse.dropWhile isPySpace).reverse

/-- Value of a list of decimal digits. -/
def digitsToNat (l : List Char) : Nat :=
  l.foldl (fun acc c => 10 * acc + (c.toNat - 48)) 0

/-- int() on the stripped characters: an optional single sign then at least
one decimal digit; anything else raises ValueError (none). -/
def pyIntCore : List Char → Option Int
  | [] => none
  | c :: rest =>
    if c == '-' then
      if !rest.isEmpty && rest.all Char.isDigit then
        some (-(digitsToNat rest : Int))
      else none
    else if c == '+' then
      if !rest.isEmpty && rest.all Char.isDigit then some (digitsToNat rest)
      else none
    else if (c :: rest).all Char.isDigit then some (digitsToNat (c :: rest))
    else none

/-- Models Python int(str) applied to a query parameter (src/main.py
247-248): optional surrounding whitespace, an optional single sign, then
decimal digits; anything else raises ValueError, modelled as none.  (The
underscore digit grouping Python also accepts is not modelled; no claim
depends on it.) -/
def pyInt (s : String) : Option Int := pyIntCore (pyTrim s.data)

/-- request.args.get(name, default) followed by int(): an absent parameter
yields the integer default, a present one is parsed with int() and raises
(none) when malformed. -/
def parseArg (dflt : Int) : Option String → Option Int
  | none => some dflt
  | some s => pyInt s

/-- Ordering used by ORDER BY created_at ASC on trade_signals. -/
def createdLE (x y : SignalRow) : Prop := x.created_at ≤ y.created_at

instance : DecidableRel createdLE := fun x y =>
  inferInstanceAs (Decidable (x.created_at ≤ y.created_at))

instance : IsTotal SignalRow createdLE := ⟨fun x y => Int.le_total x.created_at y.created_at⟩

instance : IsTrans SignalRow createdLE := ⟨fun _ _ _ h h2 => le_trans h h2⟩

/-- Ordering used by ORDER BY open_time DESC on trades. -/
def openTimeGE (x y : TradeRow) : Prop := y.open_time ≤ x.open_time

instance : DecidableRel openTimeGE := fun x y =>
  inferInstanceAs (Decidable (y.open_time ≤ x.open_time))

/-- The page of trades returned by the SELECT of get_trades (src/main.py
250-257): the account's trades ordered by open_time descending, then OFFSET
and LIMIT. -/
def pageTrades (st : DBState) (a : Int) (limit offset : Int) : List TradeRow :=
  (((st.trades.filter (fun t => t.account_number == a)).insertionSort
    openTimeGE).drop offset.toNat).take limit.toNat

/-- The pagination object of the get_trades response (src/main.py 273-277). -/
structure Pagination where
  limit : Int
  offset : Int
  has_more : Bool
deriving DecidableEq, Repr

/-- Result of GET /api/trades/(account_number).  internalError is the
generic 500 produced by the Exception branch of handle_db_error when int()
raises ValueError on a malformed query parameter. -/
inductive GetTradesResult where
  | ok (account : AccountRow) (trades : List TradeRow) (trades_count : Nat)
      (pagination : Pagination)
  | notFound
  | internalError
deriving DecidableEq, Repr

/-- GET /api/trades/(account_number) (src/main.py 226-284).  The account
SELECT runs first; a missing account is a 404 before the query parameters
are even parsed.  Then limit is parsed (int() may raise), clamped with
min(., 1000), then offset is parsed; the trade page is fetched and the
pagination metadata reports the effective limit, the offset and
has_more = (len(trades) == limit). -/
def get_trades (st : DBState) (account_number : Int)
    (limitRaw offsetRaw : Option String) : GetTradesResult × DBState × Nat :=
  match findAccount st account_number with
  | none => (.notFound, st, 1)
  | some account =>
    match parseArg 100 limitRaw with
    | none => (.internalError, st, 1)
    | some l0 =>
      let limit := min l0 1000
      match parseArg 0 offsetRaw with
      | none => (.internalError, st, 1)
      | some offset =>
        let trades := pageTrades st account_number limit offset
        (.ok account trades trades.length
          { limit := limit, offset := offset,
            has_more := (trades.length : Int) == limit }, st, 2)

/-- Result of GET /api/accounts: every account with its left-join trade
count, ordered by last_update descending (src/main.py 286-320). -/
inductive GetAccountsResult where
  | ok (accounts : List (AccountRow × Nat)) (count : Nat)
deriving DecidableEq, Repr

/-- Ordering used by ORDER BY last_update DESC on accounts. -/
def lastUpdateGE (x y : AccountRow × Nat) : Prop :=
  y.1.last_update ≤ x.1.last_update

instance : DecidableRel lastUpdateGE := fun x y =>
  inferInstanceAs (Decidable (y.1.last_update ≤ x.1.last_update))

/-- GET /api/accounts (src/main.py 286-320): each account paired with the
number of its trade rows (LEFT JOIN ... COUNT, zero-trade accounts included
with count 0), ordered by last_update descending. -/
def get_accounts (st : DBState) : GetAccountsResult × DBState × Nat :=
  let rows := (st.accounts.map (fun a =>
    (a, (st.trades.filter (fun t => t.account_number == a.account_number)).length))).insertionSort
    lastUpdateGE
  (.ok rows rows.length, st, 1)

/-- True when a trades row with the given key exists — the fetchone of the
existence check of close_trade_signal (src/main.py 334-337). -/
def tradeMatch (st : DBState) (a k : Int) : Bool :=
  st.trades.any (fun t => t.account_number == a && t.ticket == k)

/-- Result of POST /api/trades/(account)/close/(ticket). -/
inductive CloseResult where
  | success (account ticket : Int)
  | notFound
deriving DecidableEq, Repr

/-- The trade_signals row created by a close request.  The INSERT
(src/main.py 341-346) lists only account_number, ticket, signal_type and
created_at; id is the auto-increment key and, modelled from the spec (the
table schema is not in src/), processed defaults to false and processed_at
to NULL. -/
def newSignal (st : DBState) (a k now : Int) : SignalRow :=
  { id := st.next_signal_id, account_number := a, ticket := k,
    signal_type := "CLOSE", created_at := now, processed := false,
    processed_at := none }

/-- POST /api/trades/(account)/close/(ticket) (src/main.py 322-359): 404 if
no trades row matches, else one new CLOSE signal row is inserted; nothing is
deduplicated, so every successful call appends a fresh row. -/
def close_trade_signal (st : DBState) (a k now : Int) :
    CloseResult × DBState × Nat :=
  if tradeMatch st a k then
    (.success a k,
     { st with signals := st.signals ++ [newSignal st a k now],
               next_signal_id := st.next_signal_id + 1 }, 2)
  else (.notFound, st, 1)

/-- Result of GET /api/signals/(account_number). -/
inductive SignalsResult where
  | ok (signals : List SignalRow) (count : Nat)
deriving DecidableEq, Repr

/-- GET /api/signals/(account_number) (src/main.py 361-391): SELECT the
account's rows with processed = FALSE, ORDER BY created_at ASC. -/
def get_signals (st : DBState) (a : Int) : SignalsResult × DBState × Nat :=
  let l := (st.signals.filter
    (fun s => s.account_number == a && s.processed == false)).insertionSort createdLE
  (.ok l l.length, st, 1)

/-- Result of POST /api/signals/(signal_id)/processed. -/
inductive MarkResult where
  | success (signal_id : Nat)
  | notFound
deriving DecidableEq, Repr

/-- Effect of the UPDATE of mark_signal_processed on one row: a row with
the given id gets processed = TRUE and processed_at = now, any other row is
untouched. -/
def stampSignal (sid : Nat) (now : Int) (s : SignalRow) : SignalRow :=
  if s.id == sid then { s with processed := true, processed_at := some now }
  else s

/-- POST /api/signals/(signal_id)/processed (src/main.py 393-422): one
UPDATE sets processed = TRUE and processed_at = now on every row with the
given id; cursor.rowcount is the number of rows the UPDATE touched — each
call passes a fresh datetime.now(), so a touched row is a matched row —
and a zero rowcount is answered with 404. -/
def mark_signal_processed (st : DBState) (sid : Nat) (now : Int) :
    MarkResult × DBState × Nat :=
  let matched := (st.signals.filter (fun s => s.id == sid)).length
  let st2 : DBState := { st with signals := st.signals.map (stampSignal sid now) }
  if matched = 0 then (.notFound, st2, 1) else (.success sid, st2, 1)

/-- Python str.split(sep=' '): splits at every single space, keeping empty
pieces. -/
def splitSp : List Char → List (List Char)
  | [] => [[]]
  | c :: rest =>
    let r := splitSp rest
    if c == ' ' then [] :: r
    else
      match r with
      | [] => [[c]]
      | h :: t => (c :: h) :: t

/-- auth_header.startswith of the Bearer scheme prefix. -/
def startsBearer (l : List Char) : Bool := List.isPrefixOf "Bearer ".data l

/-- authenticate_request (src/main.py 60-67): the Authorization header must
be present (a missing or empty header is falsy), start with the string
Bearer followed by a space, and its second space-separated word
(auth_header.split of a space, index 1) must equal the configured API
key. -/
def authenticate_request (api_key : String) (authHeader : Option String) : Bool :=
  match authHeader with
  | none => false
  | some h =>
    if h.isEmpty || !startsBearer h.data then false
    else ((splitSp h.data).getD 1 []) == api_key.data

/-- The bearer token a request carries, when it carries one: the second
space-separated word of an Authorization header that starts with the
Bearer scheme. -/
def bearerToken : Option String → Option (List Char)
  | none => none
  | some h =>
    if h.isEmpty || !startsBearer h.data then none
    else some ((splitSp h.data).getD 1 [])

/-- The require_auth decorator (src/main.py 69-76): the wrapped handler runs
only when authenticate_request passes; otherwise the request is answered
with the 401 body and the handler — and with it any store access — never
runs. -/
def require_auth {α : Type} (api_key : String) (authHeader : Option String)
    (unauth : α) (f : DBState → α × DBState × Nat) (st : DBState) :
    α × DBState × Nat :=
  if authenticate_request api_key authHeader then f st else (unauth, st, 0)

/-- One inbound request, with the arguments its handler consumes.  The
failAt oracle of publishTrades names the batch statement (if any) that
raises a store error; now is the datetime.now() a handler would observe. -/
inductive ApiRequest where
  | root
  | health
  | publishTrades (failAt : Option Nat) (d : PublishData)
  | getTrades (account_number : Int) (limitRaw offsetRaw : Option String)
  | getAccounts
  | closeTrade (account_number ticket : Int)
  | getSignals (account_number : Int)
  | markProcessed (signal_id : Nat)
deriving DecidableEq, Repr

/-- The response of the dispatcher, one constructor per handler outcome
family; unauthorized is the 401 emitted by require_auth. -/
inductive ApiResponse where
  | rootInfo
  | healthy
  | unauthorized
  | publish (r : PublishResult)
  | trades (r : GetTradesResult)
  | accounts (r : GetAccountsResult)
  | close (r : CloseResult)
  | signals (r : SignalsResult)
  | marked (r : MarkResult)
deriving DecidableEq, Repr

/-- The routing table of src/main.py: the root descriptor (lines 92-107) is
served without authentication and without touching the store; every other
endpoint is wrapped in require_auth, so its handler (and any statement it
would execute) runs only after the token check passes.  health_check
executes the single statement SELECT 1. -/
def handle (api_key : String) (authHeader : Option String) (now : Int)
    (req : ApiRequest) (st : DBState) : ApiResponse × DBState × Nat :=
  match req with
  | .root => (.rootInfo, st, 0)
  | .health => require_auth api_key authHeader .unauthorized
      (fun s => (.healthy, s, 1)) st
  | .publishTrades failAt d => require_auth api_key authHeader .unauthorized
      (fun s => let r := publish_trades failAt s d; (.publish r.1, r.2.1, r.2.2)) st
  | .getTrades a lim off => require_auth api_key authHeader .unauthorized
      (fun s => let r := get_trades s a lim off; (.trades r.1, r.2.1, r.2.2)) st
  | .getAccounts => require_auth api_key authHeader .unauthorized
      (fun s => let r := get_accounts s; (.accounts r.1, r.2.1, r.2.2)) st
  | .closeTrade a k => require_auth api_key authHeader .unauthorized
      (fun s => let r := close_trade_signal s a k now; (.close r.1, r.2.1, r.2.2)) st
  | .getSignals a => require_auth api_key authHeader .unauthorized
      (fun s => let r := get_signals s a; (.signals r.1, r.2.1, r.2.2)) st
  | .markProcessed sid => require_auth api_key authHeader .unauthorized
      (fun s => let r := mark_signal_processed s sid now; (.marked r.1, r.2.1, r.2.2)) st

/-! Concrete stores and payloads used to evaluate the theorems on explicit
inputs (the scenarios of spec section 8: account 1001, server X, ticket
5001 on EURUSD). -/

/-- An empty store (auto-increment counter at 1, as a fresh table). -/
def stEmpty : DBState := ⟨[], [], [], 1⟩

/-- The account row of the concrete scenario. -/
def acctW : AccountRow :=
  { account_number := 1001, server := "X", balance := 0, equity := 0,
    margin := 0, free_margin := 0, last_update := 50 }

/-- The trade row of the concrete scenario. -/
def trW : TradeRow :=
  { account_number := 1001, ticket := 5001, symbol := "EURUSD", type := 0,
    lots := 1, open_price := 11000, open_time := 50, sl := 0, tp := 0,
    profit := 0, comment := "", last_update := 50 }

/-- A store holding the scenario account and its one open trade. -/
def stW : DBState := ⟨[acctW], [trW], [], 1⟩

/-- A publish payload carrying two well-formed trades, used to exhibit what
a mid-batch store failure leaves behind. -/
def exBatch : PublishData :=
  { account := some 1001, server := some "X", timestamp := some 60,
    balance := none, equity := none, margin := none, free_margin := none,
    trades := [⟨some 5001, some "EURUSD", none, some 1, some 11000, some 50,
                 none, none, some 0, none⟩,
               ⟨some 5002, some "GBPUSD", none, none, none, none, none, none,
                 none, none⟩] }

/-- A publish payload with one well-formed trade and one entry missing its
ticket (the spec section 8 skip scenario). -/
def skipBatch : PublishData :=
  { account := some 1001, server := some "X", timestamp := some 60,
    balance := none, equity := none, margin := none, free_margin := none,
    trades := [⟨some 5001, some "EURUSD", none, some 1, some 11000, some 50,
                 none, none, some 0, none⟩,
               ⟨none, some "GBPUSD", none, none, none, none, none, none,
                 none, none⟩] }

/-- A publish payload re-publishing ticket 5001 with a new profit, stop
levels and batch timestamp but different entry terms, used to check the
merge invariant. -/
def republishBatch : PublishData :=
  { account := some 1001, server := some "X", timestamp := some 90,
    balance := none, equity := none, margin := none, free_margin := none,
    trades := [⟨some 5001, some "XXXYYY", some 1, some 2, some 22000,
                 some 80, some 3, some 4, some 75, some "changed"⟩] }

/-- A pending CLOSE signal row for the scenario trade. -/
def sigW : SignalRow :=
  { id := 1, account_number := 1001, ticket := 5001, signal_type := "CLOSE",
    created_at := 70, processed := false, processed_at := none }

/-- The scenario store right after a close request: one unprocessed
signal. -/
def stSig : DBState := ⟨[acctW], [trW], [sigW], 2⟩

/-! Helper lemmas about the publish loop. -/

theorem wfTrades_nil : wfTrades [] = [] := rfl

theorem wfTrades_cons_wf (e : TradeEntry) (rest : List TradeEntry)
    (tk : Int) (sy : String) (htk : e.ticket = some tk) (hsy : e.symbol = some sy) :
    wfTrades (e :: rest) = e :: wfTrades rest := by
  simp [wfTrades, List.filter_cons, htk, hsy]

theorem wfTrades_cons_skip (e : TradeEntry) (rest : List TradeEntry)
    (h : e.ticket = none ∨ e.symbol = none) :
    wfTrades (e :: rest) = wfTrades rest := by
  rcases h with h | h <;> simp [wfTrades, List.filter_cons, h]

theorem applyTrades_nil (a ts : Int) (st : DBState) :
    applyTrades a ts [] st = st := rfl

theorem applyTrades_cons_wf (a ts : Int) (e : TradeEntry) (rest : List TradeEntry)
    (st : DBState) (tk : Int) (sy : String)
    (htk : e.ticket = some tk) (hsy : e.symbol = some sy) :
    applyTrades a ts (e :: rest) st =
      applyTrades a ts rest (upsertTrade st (mkTradeRow a ts e tk sy)) := by
  simp [applyTrades, htk, hsy]

theorem applyTrades_cons_skip (a ts : Int) (e : TradeEntry) (rest : List TradeEntry)
    (st : DBState) (h : e.ticket = none ∨ e.symbol = none) :
    applyTrades a ts (e :: rest) st = applyTrades a ts rest st := by
  rcases h with h | h
  · simp [applyTrades, h]
  · cases htk : e.ticket <;> simp [applyTrades, htk, h]

/-- A fault-free run of the publish loop upserts every well-formed entry in
order, counts exactly them, and attempts one statement per well-formed
entry. -/
theorem runTrades_none (a ts : Int) (es : List TradeEntry) :
    ∀ (count idx : Nat) (st : DBState),
    runTrades none a ts es count idx st =
      .done (count + (wfTrades es).length) (idx + (wfTrades es).length)
        (applyTrades a ts es st) := by
  induction es with
  | nil => intro count idx st; simp [runTrades, wfTrades_nil, applyTrades_nil]
  | cons e rest ih =>
    intro count idx st
    cases htk : e.ticket with
    | none =>
      rw [runTrades]
      simp only [htk]
      rw [ih, wfTrades_cons_skip e rest (Or.inl htk),
        applyTrades_cons_skip a ts e rest st (Or.inl htk)]
    | some tk =>
      cases hsy : e.symbol with
      | none =>
        rw [runTrades]
        simp only [htk, hsy]
        rw [ih, wfTrades_cons_skip e rest (Or.inr hsy),
          applyTrades_cons_skip a ts e rest st (Or.inr hsy)]
      | some sy =>
        rw [runTrades]
        simp only [htk, hsy, reduceCtorEq, if_false]
        rw [ih, wfTrades_cons_wf e rest tk sy htk hsy,
          applyTrades_cons_wf a ts e rest st tk sy htk hsy]
        congr 1 <;> simp [List.length_cons] <;> omega

/-- A run of the publish loop whose j-th statement (counting from the
current statement index idx) raises stops right there: the well-formed
entries before statement j are already upserted — autocommit leaves them
durable — and j + 1 statements were attempted in total. -/
theorem runTrades_fail (a ts : Int) (es : List TradeEntry) :
    ∀ (count idx : Nat) (st : DBState) (j : Nat),
    idx ≤ j → j < idx + (wfTrades es).length →
    runTrades (some j) a ts es count idx st =
      .failed (j + 1) (applyTrades a ts ((wfTrades es).take (j - idx)) st) := by
  induction es with
  | nil =>
    intro count idx st j h1 h2
    rw [wfTrades_nil] at h2
    simp at h2
    omega
  | cons e rest ih =>
    intro count idx st j h1 h2
    cases htk : e.ticket with
    | none =>
      rw [wfTrades_cons_skip e rest (Or.inl htk)] at h2 ⊢
      rw [runTrades]
      simp only [htk]
      exact ih count idx st j h1 h2
    | some tk =>
      cases hsy : e.symbol with
      | none =>
        rw [wfTrades_cons_skip e rest (Or.inr hsy)] at h2 ⊢
        rw [runTrades]
        simp only [htk, hsy]
        exact ih count idx st j h1 h2
      | some sy =>
        rw [wfTrades_cons_wf e rest tk sy htk hsy] at h2 ⊢
        rw [runTrades]
        simp only [htk, hsy]
        by_cases hij : j = idx
        · subst hij
          simp [Nat.sub_self, List.take_zero, applyTrades_nil]
        · have hlt : idx < j := lt_of_le_of_ne h1 (Ne.symm hij)
          have hcond : ¬(some j = some idx) := by simp [hij]
          rw [if_neg hcond]
          rw [ih (count + 1) (idx + 1) (upsertTrade st (mkTradeRow a ts e tk sy)) j
            (by omega) (by rw [List.length_cons] at h2; omega)]
          have hsub : j - idx = (j - (idx + 1)) + 1 := by omega
          rw [hsub, List.take_succ_cons,
            applyTrades_cons_wf a ts e ((wfTrades rest).take (j - (idx + 1))) st tk sy htk hsy]

theorem upsertAccount_trades (st : DBState) (a : Int) (server : String)
    (balance equity margin free_margin last_update : Int) :
    (upsertAccount st a server balance equity margin free_margin last_update).trades
      = st.trades := by
  unfold upsertAccount; split <;> rfl

/-- Skipped entries change nothing: applying a batch is applying its
well-formed entries. -/
theorem applyTrades_wf_eq (a ts : Int) (es : List TradeEntry) :
    ∀ st : DBState, applyTrades a ts es st = applyTrades a ts (wfTrades es) st := by
  induction es with
  | nil => intro st; rfl
  | cons e rest ih =>
    intro st
    cases htk : e.ticket with
    | none =>
      rw [applyTrades_cons_skip a ts e rest st (Or.inl htk),
        wfTrades_cons_skip e rest (Or.inl htk), ih]
    | some tk =>
      cases hsy : e.symbol with
      | none =>
        rw [applyTrades_cons_skip a ts e rest st (Or.inr hsy),
          wfTrades_cons_skip e rest (Or.inr hsy), ih]
      | some sy =>
        rw [applyTrades_cons_wf a ts e rest st tk sy htk hsy,
          wfTrades_cons_wf e rest tk sy htk hsy,
          applyTrades_cons_wf a ts e (wfTrades rest) st tk sy htk hsy, ih]

/-- Full characterization of a fault-free publish call on a payload whose
required fields are present. -/
theorem publish_trades_none_eq (st : DBState) (d : PublishData)
    (a : Int) (server : String) (ts : Int)
    (ha : d.account = some a) (hs : d.server = some server)
    (ht : d.timestamp = some ts) :
    publish_trades none st d =
      (.success (wfTrades d.trades).length a,
       applyTrades a ts (wfTrades d.trades)
         (upsertAccount st a server (d.balance.getD 0) (d.equity.getD 0)
           (d.margin.getD 0) (d.free_margin.getD 0) ts),
       (wfTrades d.trades).length + 1) := by
  unfold publish_trades
  rw [ha, hs, ht]
  simp only [reduceCtorEq, if_false]
  rw [runTrades_none]
  rw [← applyTrades_wf_eq]
  simp [Nat.add_comm]

/-- Full characterization of a publish call whose statement j raises: the
j = 0 case (the account upsert itself fails, nothing written) and the case
of a failure at one of the trade statements. -/
theorem publish_trades_fail_eq (st : DBState) (d : PublishData)
    (a : Int) (server : String) (ts : Int)
    (ha : d.account = some a) (hs : d.server = some server)
    (ht : d.timestamp = some ts) :
    publish_trades (some 0) st d = (.dbError, st, 1) ∧
    ∀ j : Nat, 1 ≤ j → j ≤ (wfTrades d.trades).length →
      publish_trades (some j) st d =
        (.dbError,
         applyTrades a ts ((wfTrades d.trades).take (j - 1))
           (upsertAccount st a server (d.balance.getD 0) (d.equity.getD 0)
             (d.margin.getD 0) (d.free_margin.getD 0) ts),
         j + 1) := by
  constructor
  · unfold publish_trades
    rw [ha, hs, ht]
    simp
  · intro j hj1 hj2
    unfold publish_trades
    rw [ha, hs, ht]
    have h0 : ¬((some j : Option Nat) = some 0) := by
      simp
      omega
    dsimp only
    rw [if_neg h0]
    rw [runTrades_fail a ts d.trades 0 1 _ j hj1 (by omega)]

/-- C1 counterexample: the claim (a store error partway through a batch
leaves no account or trade row change, all-or-nothing) is false on the
code.  Publishing two well-formed trades into an empty store with the
statement of the second trade raising: the caller does get the persistence
error, but the first trade row (ticket 5001) and the account row written
before the failure are still there — autocommit retained them. -/
theorem publish_partial_failure_not_rolled_back_cex :
    (publish_trades (some 2) stEmpty exBatch).1 = .dbError ∧
    ((publish_trades (some 2) stEmpty exBatch).2.1.trades.any
      (fun t => t.account_number == 1001 && t.ticket == 5001)) = true ∧
    (stEmpty.trades.any
      (fun t => t.account_number == 1001 && t.ticket == 5001)) = false ∧
    (publish_trades (some 2) stEmpty exBatch).2.1.accounts ≠ stEmpty.accounts := by
  decide

/-- C1 (amended): a store error at statement j of a publish batch surfaces
to the caller as the persistence error, but the batch is not rolled back:
the statements already executed stay applied.  If the account upsert itself
(statement 0) fails nothing was written; if the j-th statement (the j-th
well-formed trade) fails, the account upsert and the first j - 1 well-formed
trade upserts are retained. -/
theorem publish_failure_error_and_prefix_retained (st : DBState)
    (d : PublishData) (a : Int) (server : String) (ts : Int)
    (ha : d.account = some a) (hs : d.server = some server)
    (ht : d.timestamp = some ts) :
    ((publish_trades (some 0) st d).1 = .dbError ∧
      (publish_trades (some 0) st d).2.1 = st) ∧
    ∀ j : Nat, 1 ≤ j → j ≤ (wfTrades d.trades).length →
      (publish_trades (some j) st d).1 = .dbError ∧
      (publish_trades (some j) st d).2.1 =
        applyTrades a ts ((wfTrades d.trades).take (j - 1))
          (upsertAccount st a server (d.balance.getD 0) (d.equity.getD 0)
            (d.margin.getD 0) (d.free_margin.getD 0) ts) := by
  obtain ⟨h0, hrest⟩ := publish_trades_fail_eq st d a server ts ha hs ht
  exact ⟨⟨by rw [h0], by rw [h0]⟩,
    fun j hj1 hj2 => ⟨by rw [hrest j hj1 hj2], by rw [hrest j hj1 hj2]⟩⟩

/-- Witness for the amended C1 theorem at the two-trade batch with the
second trade statement failing. -/
theorem publish_failure_error_and_prefix_retained_witness :
    (publish_trades (some 2) stEmpty exBatch).1 = .dbError ∧
    (publish_trades (some 2) stEmpty exBatch).2.1 =
      applyTrades 1001 60 ((wfTrades exBatch.trades).take 1)
        (upsertAccount stEmpty 1001 "X" 0 0 0 0 60) :=
  (publish_failure_error_and_prefix_retained stEmpty exBatch 1001 "X" 60
    rfl rfl rfl).2 2 (by decide) (by decide)

/-- C3: a fault-free publish skips exactly the entries lacking a ticket or
a symbol (without error), upserts the others in order, and reports
trades_count equal to the number of entries carrying both fields. -/
theorem publish_counts_and_persists_wellformed_only (st : DBState)
    (d : PublishData) (a : Int) (server : String) (ts : Int)
    (ha : d.account = some a) (hs : d.server = some server)
    (ht : d.timestamp = some ts) :
    (publish_trades none st d).1 =
      .success (d.trades.filter
        (fun e => e.ticket.isSome && e.symbol.isSome)).length a ∧
    (publish_trades none st d).2.1 =
      applyTrades a ts (wfTrades d.trades)
        (upsertAccount st a server (d.balance.getD 0) (d.equity.getD 0)
          (d.margin.getD 0) (d.free_margin.getD 0) ts) := by
  rw [publish_trades_none_eq st d a server ts ha hs ht]
  exact ⟨rfl, rfl⟩

/-- Witness for C3 at the spec scenario: one well-formed trade plus one
entry missing its ticket gives trades_count = 1 and persists only the
well-formed trade. -/
theorem publish_counts_and_persists_wellformed_only_witness :
    (publish_trades none stEmpty skipBatch).1 = .success 1 1001 ∧
    (publish_trades none stEmpty skipBatch).2.1.trades =
      [{ account_number := 1001, ticket := 5001, symbol := "EURUSD",
         type := 0, lots := 1, open_price := 11000, open_time := 50,
         sl := 0, tp := 0, profit := 0, comment := "", last_update := 60 }] := by
  obtain ⟨h1, h2⟩ := publish_counts_and_persists_wellformed_only stEmpty
    skipBatch 1001 "X" 60 rfl rfl rfl
  constructor
  · rw [h1]
    decide
  · rw [h2]
    decide

theorem upsertTrade_existing (st : DBState) (r : TradeRow)
    (hex : st.trades.any
      (fun t => t.account_number == r.account_number && t.ticket == r.ticket) = true) :
    (upsertTrade st r).trades = st.trades.map (fun t =>
      if t.account_number == r.account_number && t.ticket == r.ticket then
        { t with profit := r.profit, sl := r.sl, tp := r.tp,
                 last_update := r.last_update }
      else t) := by
  unfold upsertTrade
  rw [if_pos hex]

/-- The ON DUPLICATE KEY UPDATE branch of the trade upsert rewrites only
profit, sl, tp and last_update of the matching row; every identity field of
the row comes from the previously stored row. -/
theorem upsertTrade_identity (st : DBState) (r : TradeRow)
    (hex : st.trades.any
      (fun t => t.account_number == r.account_number && t.ticket == r.ticket) = true) :
    ∀ t' ∈ (upsertTrade st r).trades,
      t'.account_number = r.account_number → t'.ticket = r.ticket →
      ∃ t0 ∈ st.trades, t0.account_number = r.account_number ∧
        t0.ticket = r.ticket ∧
        t'.symbol = t0.symbol ∧ t'.type = t0.type ∧ t'.lots = t0.lots ∧
        t'.open_price = t0.open_price ∧ t'.open_time = t0.open_time ∧
        t'.comment = t0.comment ∧
        t'.profit = r.profit ∧ t'.sl = r.sl ∧ t'.tp = r.tp ∧
        t'.last_update = r.last_update := by
  rw [upsertTrade_existing st r hex]
  intro t' ht' h1 h2
  obtain ⟨t0, ht0, hft⟩ := List.mem_map.1 ht'
  by_cases hkey : (t0.account_number == r.account_number && t0.ticket == r.ticket) = true
  · rw [if_pos hkey] at hft
    subst hft
    rw [Bool.and_eq_true] at hkey
    obtain ⟨hk1, hk2⟩ := hkey
    exact ⟨t0, ht0, beq_iff_eq.1 hk1, beq_iff_eq.1 hk2, rfl, rfl, rfl, rfl,
      rfl, rfl, rfl, rfl, rfl, rfl⟩
  · rw [if_neg hkey] at hft
    subst hft
    exact absurd (by simp [h1, h2]) hkey

/-- C2: when a trade row with key (account, ticket) already exists,
publishing that ticket again refreshes only profit, sl, tp and last_update
of the row; symbol, type, lots, open_price, open_time and comment keep the
values the store already held. -/
theorem publish_upsert_preserves_identity_fields (st : DBState)
    (d : PublishData) (a ts tk : Int) (server sy : String) (e : TradeEntry)
    (ha : d.account = some a) (hs : d.server = some server)
    (ht : d.timestamp = some ts) (htr : d.trades = [e])
    (he1 : e.ticket = some tk) (he2 : e.symbol = some sy)
    (hex : tradeMatch st a tk = true) :
    (publish_trades none st d).1 = .success 1 a ∧
    ∀ t' ∈ (publish_trades none st d).2.1.trades,
      t'.account_number = a → t'.ticket = tk →
      ∃ t0 ∈ st.trades, t0.account_number = a ∧ t0.ticket = tk ∧
        t'.symbol = t0.symbol ∧ t'.type = t0.type ∧ t'.lots = t0.lots ∧
        t'.open_price = t0.open_price ∧ t'.open_time = t0.open_time ∧
        t'.comment = t0.comment ∧
        t'.profit = e.profit.getD 0 ∧ t'.sl = e.sl.getD 0 ∧
        t'.tp = e.tp.getD 0 ∧ t'.last_update = ts := by
  have heq := publish_trades_none_eq st d a server ts ha hs ht
  rw [htr, wfTrades_cons_wf e [] tk sy he1 he2, wfTrades_nil] at heq
  rw [heq]
  set stA := upsertAccount st a server (d.balance.getD 0) (d.equity.getD 0)
    (d.margin.getD 0) (d.free_margin.getD 0) ts with hstA
  rw [applyTrades_cons_wf a ts e [] stA tk sy he1 he2, applyTrades_nil]
  set r := mkTradeRow a ts e tk sy with hr
  have hAtr : stA.trades = st.trades :=
    upsertAccount_trades st a server (d.balance.getD 0) (d.equity.getD 0)
      (d.margin.getD 0) (d.free_margin.getD 0) ts
  have hexA : stA.trades.any
      (fun t => t.account_number == r.account_number && t.ticket == r.ticket) = true := by
    rw [hAtr]
    exact hex
  refine ⟨rfl, ?_⟩
  intro t' ht' h1 h2
  obtain ⟨t0, ht0, hk1, hk2, hrest⟩ :=
    upsertTrade_identity stA r hexA t' ht' h1 h2
  rw [hAtr] at ht0
  exact ⟨t0, ht0, hk1, hk2, hrest⟩

/-- Witness for C2 at the spec scenario: ticket 5001 exists with symbol
EURUSD, lots 1, open_price 11000, open_time 50; a re-publish with profit
75, sl 3, tp 4, batch time 90 and a different symbol, type, lots,
open_price, open_time and comment in the payload leaves the identity
fields as stored and refreshes only the financial ones. -/
theorem publish_upsert_preserves_identity_fields_witness :
    (publish_trades none stW republishBatch).1 = .success 1 1001 ∧
    (publish_trades none stW republishBatch).2.1.trades =
      [{ account_number := 1001, ticket := 5001, symbol := "EURUSD",
         type := 0, lots := 1, open_price := 11000, open_time := 50,
         sl := 3, tp := 4, profit := 75, comment := "", last_update := 90 }] := by
  obtain ⟨h1, _⟩ := publish_upsert_preserves_identity_fields stW
    republishBatch 1001 90 5001 "X" "XXXYYY"
    ⟨some 5001, some "XXXYYY", some 1, some 2, some 22000, some 80, some 3,
     some 4, some 75, some "changed"⟩
    rfl rfl rfl rfl rfl rfl (by decide)
  exact ⟨h1, by decide⟩

/-- C4: a close request for a (account, ticket) with no matching trade row
is answered NotFound and leaves the signal table unchanged; with a matching
row it appends exactly one new CLOSE signal, unprocessed, stamped with the
request time — and a repeated call appends another row, nothing is
deduplicated. -/
theorem close_signal_notfound_or_insert (st : DBState) (a k now now2 : Int) :
    (tradeMatch st a k = false →
      close_trade_signal st a k now = (.notFound, st, 1)) ∧
    (tradeMatch st a k = true →
      (close_trade_signal st a k now).1 = .success a k ∧
      (close_trade_signal st a k now).2.1.signals =
        st.signals ++ [newSignal st a k now] ∧
      (newSignal st a k now).signal_type = "CLOSE" ∧
      (newSignal st a k now).processed = false ∧
      (newSignal st a k now).created_at = now ∧
      (close_trade_signal (close_trade_signal st a k now).2.1 a k now2).1 =
        .success a k ∧
      (close_trade_signal (close_trade_signal st a k now).2.1 a k now2).2.1.signals =
        st.signals ++ [newSignal st a k now,
          newSignal (close_trade_signal st a k now).2.1 a k now2]) := by
  refine ⟨fun h => ?_, fun h => ?_⟩
  · simp [close_trade_signal, h]
  · have h1 : close_trade_signal st a k now =
      (.success a k,
       { st with signals := st.signals ++ [newSignal st a k now],
                 next_signal_id := st.next_signal_id + 1 }, 2) := by
      simp [close_trade_signal, h]
    rw [h1]
    have h2 : tradeMatch
        { st with signals := st.signals ++ [newSignal st a k now],
                  next_signal_id := st.next_signal_id + 1 } a k = true := h
    simp only [close_trade_signal]
    rw [if_pos h2]
    simp [newSignal]

/-- Witness for C4: on the scenario store, closing a missing ticket is
NotFound; closing ticket 5001 (which exists) twice appends two distinct
CLOSE signal rows. -/
theorem close_signal_notfound_or_insert_witness :
    tradeMatch stW 1001 9999 = false ∧
    close_trade_signal stW 1001 9999 70 = (.notFound, stW, 1) ∧
    tradeMatch stW 1001 5001 = true ∧
    (close_trade_signal stW 1001 5001 70).2.1.signals =
      [newSignal stW 1001 5001 70] ∧
    (close_trade_signal (close_trade_signal stW 1001 5001 70).2.1
      1001 5001 71).2.1.signals =
      [newSignal stW 1001 5001 70,
       newSignal (close_trade_signal stW 1001 5001 70).2.1 1001 5001 71] := by
  have hmiss := (close_signal_notfound_or_insert stW 1001 9999 70 71).1 (by decide)
  have hhit := (close_signal_notfound_or_insert stW 1001 5001 70 71).2 (by decide)
  exact ⟨by decide, hmiss, by decide, hhit.2.1, hhit.2.2.2.2.2.2⟩

theorem stampSignal_id (sid : Nat) (now : Int) (s : SignalRow) :
    (stampSignal sid now s).id = s.id := by
  simp only [stampSignal]
  split <;> rfl

/-- An UPDATE whose WHERE clause matches no row changes nothing. -/
theorem map_stamp_id (sid : Nat) (now : Int) (l : List SignalRow)
    (h : ∀ s ∈ l, s.id ≠ sid) :
    l.map (stampSignal sid now) = l := by
  induction l with
  | nil => rfl
  | cons x xs ih =>
    have hx : (x.id == sid) = false := by
      simp [h x (List.mem_cons_self x xs)]
    simp [stampSignal, hx,
      ih (fun s hs => h s (List.mem_cons_of_mem x hs))]

/-- Every row of the stamped table that carries the id is processed and
stamped with the given time. -/
theorem stamped_fields (sid : Nat) (now : Int) (l : List SignalRow) :
    ∀ s ∈ l.map (stampSignal sid now), s.id = sid →
      s.processed = true ∧ s.processed_at = some now := by
  intro s hs hid
  obtain ⟨x, hx, hfx⟩ := List.mem_map.1 hs
  by_cases hkey : (x.id == sid) = true
  · rw [stampSignal, if_pos hkey] at hfx
    subst hfx
    exact ⟨rfl, rfl⟩
  · rw [stampSignal, if_neg hkey] at hfx
    subst hfx
    exact absurd (by simp [hid]) hkey

/-- A mark-processed call on an id held by some row succeeds and its state
is the stamped table. -/
theorem mark_success_of_mem (st : DBState) (sid : Nat) (now : Int)
    (s0 : SignalRow) (hmem : s0 ∈ st.signals) (hid : s0.id = sid) :
    (mark_signal_processed st sid now).1 = .success sid ∧
    (mark_signal_processed st sid now).2.1 =
      { st with signals := st.signals.map (stampSignal sid now) } := by
  have hf : s0 ∈ st.signals.filter (fun s => s.id == sid) :=
    List.mem_filter.2 ⟨hmem, by simp [hid]⟩
  have hm : (st.signals.filter (fun s => s.id == sid)).length ≠ 0 := by
    have hne := List.ne_nil_of_mem hf
    simpa [List.length_eq_zero] using hne
  simp [mark_signal_processed, hm]

/-- C5: mark-processed is NotFound exactly when no signal row has the id
(the UPDATE touches zero rows, state unchanged); when a row has the id the
call succeeds and every row with that id ends processed with processed_at
equal to the call time — and a second call on the already-processed row
still succeeds and re-stamps processed_at with the later time. -/
theorem mark_processed_notfound_iff_missing (st : DBState) (sid : Nat)
    (now now2 : Int) :
    ((∀ s ∈ st.signals, s.id ≠ sid) →
      mark_signal_processed st sid now = (.notFound, st, 1)) ∧
    (∀ s0 ∈ st.signals, s0.id = sid →
      (mark_signal_processed st sid now).1 = .success sid ∧
      (∀ s ∈ (mark_signal_processed st sid now).2.1.signals,
        s.id = sid → s.processed = true ∧ s.processed_at = some now) ∧
      (mark_signal_processed
        (mark_signal_processed st sid now).2.1 sid now2).1 = .success sid ∧
      (∀ s ∈ (mark_signal_processed
          (mark_signal_processed st sid now).2.1 sid now2).2.1.signals,
        s.id = sid → s.processed = true ∧ s.processed_at = some now2)) := by
  constructor
  · intro h
    have hm : (st.signals.filter (fun s => s.id == sid)).length = 0 := by
      rw [List.length_eq_zero, List.filter_eq_nil_iff]
      intro s hs
      simp [h s hs]
    simp [mark_signal_processed, hm, map_stamp_id sid now st.signals h]
  · intro s0 hmem hid
    obtain ⟨h1, h2⟩ := mark_success_of_mem st sid now s0 hmem hid
    have hmem2 : stampSignal sid now s0 ∈
        (mark_signal_processed st sid now).2.1.signals := by
      rw [h2]
      exact List.mem_map_of_mem _ hmem
    have hid2 : (stampSignal sid now s0).id = sid := by
      rw [stampSignal_id]
      exact hid
    obtain ⟨h3, h4⟩ := mark_success_of_mem
      (mark_signal_processed st sid now).2.1 sid now2 _ hmem2 hid2
    refine ⟨h1, ?_, h3, ?_⟩
    · rw [h2]
      exact stamped_fields sid now st.signals
    · rw [h4, h2]
      exact stamped_fields sid now2 _

/-- Witness for C5: marking a missing id is NotFound with the store
untouched; marking signal 1 succeeds, and marking it again also succeeds
and re-stamps processed_at with the later time. -/
theorem mark_processed_notfound_iff_missing_witness :
    mark_signal_processed stSig 99 80 = (.notFound, stSig, 1) ∧
    (mark_signal_processed stSig 1 80).1 = .success 1 ∧
    (mark_signal_processed
      (mark_signal_processed stSig 1 80).2.1 1 81).1 = .success 1 ∧
    (mark_signal_processed
      (mark_signal_processed stSig 1 80).2.1 1 81).2.1.signals =
      [{ sigW with processed := true, processed_at := some 81 }] := by
  have hA := (mark_processed_notfound_iff_missing stSig 99 80 81).1 (by decide)
  have hB := (mark_processed_notfound_iff_missing stSig 1 80 81).2
    sigW (by decide) (by decide)
  exact ⟨hA, hB.1, hB.2.2.1, by decide⟩

/-- C6: listSignals returns exactly the account's signals whose processed
flag is false — every signal marked processed is excluded — in ascending
created_at order (oldest first). -/
theorem get_signals_unprocessed_sorted (st : DBState) (a : Int) :
    ∃ l, get_signals st a = (.ok l l.length, st, 1) ∧
      (∀ s, s ∈ l ↔
        (s ∈ st.signals ∧ s.account_number = a ∧ s.processed = false)) ∧
      l.Pairwise (fun x y => x.created_at ≤ y.created_at) := by
  refine ⟨_, rfl, ?_, ?_⟩
  · intro s
    rw [List.mem_insertionSort, List.mem_filter]
    constructor
    · rintro ⟨h1, h2⟩
      rw [Bool.and_eq_true] at h2
      exact ⟨h1, beq_iff_eq.1 h2.1, beq_iff_eq.1 h2.2⟩
    · rintro ⟨h1, h2, h3⟩
      exact ⟨h1, by simp [h2, h3]⟩
  · exact List.sorted_insertionSort createdLE
      (st.signals.filter (fun s => s.account_number == a && s.processed == false))

/-- C7: getTrades on an account with no row is NotFound for every limit and
offset parameter, and the store state is unchanged. -/
theorem get_trades_missing_account_notfound (st : DBState) (a : Int)
    (h : findAccount st a = none) (limitRaw offsetRaw : Option String) :
    get_trades st a limitRaw offsetRaw = (.notFound, st, 1) := by
  simp [get_trades, h]

/-- Witness for C7 on a store that has no account 2002, with an oversized
limit and a nonzero offset. -/
theorem get_trades_missing_account_notfound_witness :
    findAccount stW 2002 = none ∧
    get_trades stW 2002 (some "1000001") (some "5") = (.notFound, stW, 1) :=
  ⟨by decide, get_trades_missing_account_notfound stW 2002 (by decide)
    (some "1000001") (some "5")⟩

/-- C8: on an existing account the effective limit is the requested one
(default 100 when absent) clamped by min to at most 1000; the pagination
metadata reports that limit and the offset, and has_more is true exactly
when the page holds as many rows as the effective limit. -/
theorem get_trades_pagination_metadata (st : DBState) (a : Int)
    (acct : AccountRow) (limitRaw offsetRaw : Option String) (l0 o : Int)
    (hacct : findAccount st a = some acct)
    (hl : parseArg 100 limitRaw = some l0)
    (ho : parseArg 0 offsetRaw = some o) :
    ∃ trades pg,
      get_trades st a limitRaw offsetRaw =
        (.ok acct trades trades.length pg, st, 2) ∧
      pg.limit = min l0 1000 ∧ pg.offset = o ∧
      (limitRaw = none → pg.limit = 100) ∧
      (1000 < l0 → pg.limit = 1000) ∧
      (pg.has_more = true ↔ (trades.length : Int) = pg.limit) := by
  have heq : get_trades st a limitRaw offsetRaw =
      (.ok acct (pageTrades st a (min l0 1000) o)
        (pageTrades st a (min l0 1000) o).length
        { limit := min l0 1000, offset := o,
          has_more :=
            ((pageTrades st a (min l0 1000) o).length : Int) == min l0 1000 },
       st, 2) := by
    simp [get_trades, hacct, hl, ho]
  refine ⟨pageTrades st a (min l0 1000) o,
    { limit := min l0 1000, offset := o,
      has_more :=
        ((pageTrades st a (min l0 1000) o).length : Int) == min l0 1000 },
    heq, rfl, rfl, ?_, ?_, ?_⟩
  · intro hnone
    rw [hnone] at hl
    simp only [parseArg, Option.some.injEq] at hl
    rw [← hl]
    show min (100 : Int) 1000 = 100
    decide
  · intro hgt
    exact min_eq_right (le_of_lt hgt)
  · exact beq_iff_eq

/-- Witness for C8: requesting limit 2000 on the scenario account clamps to
1000; the page holds the single trade, so has_more is false as the iff
demands. -/
theorem get_trades_pagination_metadata_witness :
    findAccount stW 1001 = some acctW ∧
    parseArg 100 (some "2000") = some 2000 ∧
    parseArg 0 (some "5") = some 5 ∧
    (∃ trades pg,
      get_trades stW 1001 (some "2000") (some "5") =
        (.ok acctW trades trades.length pg, stW, 2) ∧
      pg.limit = min 2000 1000 ∧ pg.offset = 5 ∧
      ((some "2000" : Option String) = none → pg.limit = 100) ∧
      (1000 < (2000 : Int) → pg.limit = 1000) ∧
      (pg.has_more = true ↔ (trades.length : Int) = pg.limit)) :=
  ⟨by decide, by decide, by decide,
    get_trades_pagination_metadata stW 1001 acctW (some "2000") (some "5")
      2000 5 (by decide) (by decide) (by decide)⟩

theorem authenticate_iff_token (api_key : String) (hdr : Option String) :
    authenticate_request api_key hdr = true ↔
      bearerToken hdr = some api_key.data := by
  cases hdr with
  | none => simp [authenticate_request, bearerToken]
  | some h =>
    by_cases hb : h.isEmpty || !startsBearer h.data
    · simp [authenticate_request, bearerToken, hb]
    · simp [authenticate_request, bearerToken, hb]

/-- C9: every request other than the root descriptor whose bearer token is
missing or differs from the configured secret is answered Unauthorized with
the store untouched: the state is unchanged and zero statements were
executed, the handler never ran. -/
theorem non_root_unauthorized_no_store_access (api_key : String)
    (authHeader : Option String) (now : Int) (req : ApiRequest)
    (st : DBState) (hreq : req ≠ ApiRequest.root)
    (hauth : bearerToken authHeader ≠ some api_key.data) :
    handle api_key authHeader now req st = (.unauthorized, st, 0) := by
  have hfalse : authenticate_request api_key authHeader = false := by
    cases hb : authenticate_request api_key authHeader with
    | false => rfl
    | true =>
      exact absurd ((authenticate_iff_token api_key authHeader).1 hb) hauth
  cases req <;>
    first
      | exact absurd rfl hreq
      | simp [handle, require_auth, hfalse]

/-- Witness for C9: a wrong bearer token on the signals listing endpoint is
rejected without touching the scenario store. -/
theorem non_root_unauthorized_no_store_access_witness :
    (ApiRequest.getSignals 1001 ≠ ApiRequest.root) ∧
    bearerToken (some "Bearer wrong") ≠ some ("your-secret-api-key".data) ∧
    handle "your-secret-api-key" (some "Bearer wrong") 0
      (ApiRequest.getSignals 1001) stW = (.unauthorized, stW, 0) :=
  ⟨by decide, by decide,
    non_root_unauthorized_no_store_access "your-secret-api-key"
      (some "Bearer wrong") 0 (ApiRequest.getSignals 1001) stW
      (by decide) (by decide)⟩

/-- C10: on an existing account a limit or offset query string that int()
cannot parse raises ValueError, which the generic exception branch of
handle_db_error turns into the 500 internal-server-error response (never a
400); the account lookup runs before the parameter parsing, so a missing
account is still answered 404 whatever the parameter strings hold. -/
theorem malformed_page_params_internal_error (st : DBState) (a : Int)
    (acct : AccountRow) (s : String) (hmal : pyInt s = none) :
    (findAccount st a = some acct →
      (∀ offsetRaw, get_trades st a (some s) offsetRaw =
        (.internalError, st, 1)) ∧
      (∀ limitRaw l0, parseArg 100 limitRaw = some l0 →
        get_trades st a limitRaw (some s) = (.internalError, st, 1))) ∧
    (findAccount st a = none →
      ∀ limitRaw offsetRaw,
        get_trades st a limitRaw offsetRaw = (.notFound, st, 1)) := by
  constructor
  · intro hacct
    constructor
    · intro offsetRaw
      simp [get_trades, hacct, parseArg, hmal]
    · intro limitRaw l0 hl
      have ho : parseArg 0 (some s) = none := by simp [parseArg, hmal]
      simp [get_trades, hacct, hl, ho]
  · intro hacct limitRaw offsetRaw
    simp [get_trades, hacct]

/-- Witness for C10 with the unparsable string abc: internal error on the
existing account through either parameter, NotFound on the missing one. -/
theorem malformed_page_params_internal_error_witness :
    pyInt "abc" = none ∧
    findAccount stW 1001 = some acctW ∧
    get_trades stW 1001 (some "abc") none = (.internalError, stW, 1) ∧
    get_trades stW 1001 none (some "abc") = (.internalError, stW, 1) ∧
    findAccount stW 2002 = none ∧
    get_trades stW 2002 (some "abc") (some "abc") = (.notFound, stW, 1) := by
  have h1 := (malformed_page_params_internal_error stW 1001 acctW "abc"
    (by decide)).1 (by decide)
  have h2 := (malformed_page_params_internal_error stW 2002 acctW "abc"
    (by decide)).2 (by decide)
  exact ⟨by decide, by decide, h1.1 none, h1.2 none 100 (by decide),
    by decide, h2 (some "abc") (some "abc")⟩
